import Mathlib

/-!
Shallow embedding of the Memory Match service worker (`src/sw.js`, v2.3.0).

The browser's Cache Storage is modelled as an association list from cache
names to partitions; a partition is an association list from request URLs to
captured responses.  The network is modelled as a function from a URL to
`Option Response`, where `none` means the fetch throws (offline, DNS error,
timeout).  Each event handler of the worker becomes a pure state-passing
function over this store.
-/

set_option autoImplicit false

namespace SW

/-- A captured HTTP response: status, status text, headers, body bytes. -/
structure Response where
  status : Nat
  statusText : String
  headers : List (String × String)
  body : String
  deriving DecidableEq, Repr

/-- A request descriptor: method and absolute URL (as handed to the fetch
event listener). -/
structure Request where
  method : String
  url : String
  deriving DecidableEq, Repr

/-- First-match lookup in an association list keyed by strings, mirroring
both `caches.open/delete` name resolution and `cache.match` URL lookup. -/
def alistFind {α : Type} : List (String × α) → String → Option α
  | [], _ => none
  | (k, v) :: rest, key => if k = key then some v else alistFind rest key

/-- One named cache: URL-keyed stored responses. -/
abbrev Partition := List (String × Response)

/-- The whole Cache Storage: name-keyed partitions. -/
abbrev CacheStore := List (String × Partition)

/-- Source constant CACHE_NAME: the versioned static partition name. -/
def CACHE_NAME : String := "memory-match-v2.3.0"

/-- Source constant RUNTIME_CACHE: the fixed runtime partition name. -/
def RUNTIME_CACHE : String := "memory-match-runtime"

/-- Source constant STATIC_ASSETS: the files cached on install. -/
def STATIC_ASSETS : List String := ["./", "./index.html", "./manifest.json", "./logo.png"]

/-- Model of `caches.open(name)`: create-if-absent, otherwise leave the
store untouched. -/
def cachesOpen (store : CacheStore) (name : String) : CacheStore :=
  if (alistFind store name).isSome then store else store ++ [(name, [])]

/-- Model of `caches.delete(name)`: remove the partition with that name. -/
def cachesDelete (store : CacheStore) (name : String) : CacheStore :=
  store.filter (fun e => e.1 ≠ name)

/-- Model of `caches.keys()`: the list of partition names. -/
def cachesKeys (store : CacheStore) : List String :=
  store.map Prod.fst

/-- Model of `cache.match(request)` on the named partition: `none` when
either the partition or the entry is absent. -/
def cacheMatch (store : CacheStore) (name url : String) : Option Response :=
  (alistFind store name).bind (fun p => alistFind p url)

/-- Model of `cache.put(request, response)` on the named partition:
overwrite the entry for that URL. -/
def cachePut (store : CacheStore) (name url : String) (resp : Response) : CacheStore :=
  store.map (fun e =>
    (e.1, if e.1 = name then (url, resp) :: e.2.filter (fun kv => kv.1 ≠ url) else e.2))

/-- The network, as seen by one handler run: `none` models `fetch` throwing. -/
abbrev Network := String → Option Response

/-- Body of the synthesized offline response, exactly as
`JSON.stringify({error: ..., message: ...})` produces it in the source. -/
def offlineBody : String :=
  "\x7b\"error\":\"Offline and resource not cached\",\"message\":\"האפליקציה זמינה במצב לא מקוון, אך המשאב המבוקש לא נמצא במטמון\"\x7d"

/-- The `new Response(...)` synthesized at the end of the fallback chain. -/
def offlineResponse : Response :=
  { status := 503
    statusText := "Service Unavailable"
    headers := [("Content-Type", "application/json")]
    body := offlineBody }

/-- Model of `networkFirstStrategy(request)`: open the runtime partition, try the
network; on a 200 response put a copy in the runtime partition and return
the response; on any other success return it uncached; on failure fall back
to the runtime partition, then the static partition, then the synthesized
offline response.  Returns the response together with the updated store. -/
def networkFirstStrategy (net : Network) (store : CacheStore) (request : Request) :
    Response × CacheStore :=
  let store1 := cachesOpen store RUNTIME_CACHE
  match net request.url with
  | some networkResponse =>
    if networkResponse.status = 200 then
      (networkResponse, cachePut store1 RUNTIME_CACHE request.url networkResponse)
    else
      (networkResponse, store1)
  | none =>
    match cacheMatch store1 RUNTIME_CACHE request.url with
    | some cachedResponse => (cachedResponse, store1)
    | none =>
      let store2 := cachesOpen store1 CACHE_NAME
      match cacheMatch store2 CACHE_NAME request.url with
      | some staticResponse => (staticResponse, store2)
      | none => (offlineResponse, store2)

/-- Model of `url.protocol` of the WHATWG URL class: the scheme up to and
including the colon (computed over the character list so that it reduces
in the kernel). -/
def urlProtocol (url : String) : String :=
  String.mk (url.toList.takeWhile (fun c => c ≠ ':')) ++ ":"

/-- Model of JavaScript `s.startsWith(p)`. -/
def strStartsWith (s p : String) : Bool :=
  p.toList.isPrefixOf s.toList

/-- The fetch event listener: skip (return without `respondWith`) when the
method is not GET or the protocol does not start with "http"; otherwise
respond with the network-first strategy.  `none` models passing the request
through untouched: no cache partition is read or written and the store is
unchanged. -/
def handleFetch (net : Network) (store : CacheStore) (request : Request) :
    Option (Response × CacheStore) :=
  if request.method ≠ "GET" then none
  else if ¬ strStartsWith (urlProtocol request.url) "http" then none
  else some (networkFirstStrategy net store request)

/-- The activate event listener: enumerate the partition names and delete
every one that is neither the current static name nor the runtime name
(`clients.claim` touches no cache state and is not modelled). -/
def handleActivate (store : CacheStore) : CacheStore :=
  (cachesKeys store).foldl
    (fun s cacheName =>
      if cacheName = CACHE_NAME ∨ cacheName = RUNTIME_CACHE then s else cachesDelete s cacheName)
    store

/-- Model of `Response.ok`: the status is in the 2xx range. -/
def responseOk (r : Response) : Bool :=
  200 ≤ r.status && r.status ≤ 299

/-- Model of `cache.addAll(assets)`: fetch every asset and write each into
the named partition; the whole operation rejects (`none`) when any single
fetch throws or resolves with a non-ok (non-2xx) response, and no
partially written store is surfaced. -/
def addAll (net : Network) (store : CacheStore) (name : String) (assets : List String) :
    Option CacheStore :=
  assets.foldl
    (fun acc url => acc.bind (fun s =>
      (net url).bind (fun r =>
        if responseOk r then some (cachePut s name url r) else none)))
    (some store)

/-- The install event listener: open the versioned static partition,
`addAll` the static asset list, then call `self.skipWaiting()` (recorded as
the boolean in the result).  `none` models the install promise rejecting. -/
def handleInstall (net : Network) (store : CacheStore) : Option (CacheStore × Bool) :=
  let store1 := cachesOpen store CACHE_NAME
  (addAll net store1 CACHE_NAME STATIC_ASSETS).map (fun s => (s, true))

/-- Shape of `event.data` of a message event: a record with a `type` field. -/
structure MessageData where
  type : String
  deriving DecidableEq, Repr

/-- Body of the `CLEAR_CACHE` branch: `caches.keys()` then delete every
name. -/
def clearAll (store : CacheStore) : CacheStore :=
  (cachesKeys store).foldl cachesDelete store

/-- The message event listener: `SKIP_WAITING` calls `self.skipWaiting()`
(the boolean in the result); `CLEAR_CACHE` deletes every partition; any
other message (or a missing `event.data`) does nothing. -/
def handleMessage (store : CacheStore) (msg : Option MessageData) : CacheStore × Bool :=
  match msg with
  | none => (store, false)
  | some m =>
    let skipped := m.type = "SKIP_WAITING"
    if m.type = "CLEAR_CACHE" then (clearAll store, skipped) else (store, skipped)

/-- Shape of the JSON payload of a push event: optional title, body, icon
and url fields. -/
structure PushPayload where
  title : Option String
  body : Option String
  icon : Option String
  url : Option String
  deriving DecidableEq, Repr

/-- Model of JavaScript `v || d` on an optional string field: the default
is used when the field is absent or the empty string (falsy). -/
def jsOr (v : Option String) (d : String) : String :=
  match v with
  | some s => if s = "" then d else s
  | none => d

/-- One entry of the `actions` array passed to `showNotification`. -/
structure NotificationAction where
  action : String
  title : String
  deriving DecidableEq, Repr

/-- The options record passed to `showNotification`. -/
structure NotificationOptions where
  body : String
  icon : String
  badge : String
  vibrate : List Nat
  data : String
  actions : List NotificationAction
  deriving DecidableEq, Repr

/-- The notification rendered by `self.registration.showNotification`. -/
structure ShownNotification where
  title : String
  options : NotificationOptions
  deriving DecidableEq, Repr

/-- The push event listener: decode the payload (an absent payload behaves
as the empty object) and display a notification with payload-or-default
title, body, icon and URL data, a fixed vibration pattern and the two
actions `open` and `close`. -/
def handlePush (payload : Option PushPayload) : ShownNotification :=
  let data := payload.getD { title := none, body := none, icon := none, url := none }
  { title := jsOr data.title "Memory Match"
    options :=
      { body := jsOr data.body "יש לך משחק לא גמור!"
        icon := jsOr data.icon "./icon-192.png"
        badge := "./icon-192.png"
        vibrate := [200, 100, 200]
        data := jsOr data.url "./"
        actions := [{ action := "open", title := "פתח משחק" },
                    { action := "close", title := "סגור" }] } }

/-- The outcome of a notificationclick event: whether the notification was
closed and which URL, if any, was passed to `clients.openWindow`. -/
structure ClickResult where
  closed : Bool
  openedWindow : Option String
  deriving DecidableEq, Repr

/-- The notificationclick event listener: close the notification
unconditionally, then open a window at `notification.data || './'` exactly
when the clicked action is `open` or absent (the empty action string). -/
def handleNotificationClick (action : String) (data : String) : ClickResult :=
  { closed := true
    openedWindow :=
      if action = "open" ∨ action = "" then some (jsOr (some data) "./") else none }

/-! ### Lemmas about the cache-store operations -/

theorem alistFind_append_single {α : Type} (s : List (String × α)) (n : String) (p : α)
    (k : String) :
    alistFind (s ++ [(n, p)]) k =
      match alistFind s k with
      | some v => some v
      | none => if n = k then some p else none := by
  induction s with
  | nil => simp [alistFind]
  | cons e rest ih =>
    obtain ⟨a, b⟩ := e
    by_cases h : a = k <;> simp [alistFind, h, ih]

theorem cacheMatch_cachesOpen (s : CacheStore) (n n' u : String) :
    cacheMatch (cachesOpen s n) n' u = cacheMatch s n' u := by
  unfold cachesOpen
  by_cases h : (alistFind s n).isSome
  · simp [h]
  · simp only [h, if_false, Bool.false_eq_true, cacheMatch, alistFind_append_single]
    cases hf : alistFind s n'
    · by_cases hn : n = n' <;> simp [hn, alistFind]
    · simp

theorem isSome_alistFind_cachesOpen_self (s : CacheStore) (n : String) :
    (alistFind (cachesOpen s n) n).isSome := by
  unfold cachesOpen
  by_cases h : (alistFind s n).isSome
  · rw [if_pos h]
    exact h
  · rw [if_neg h, alistFind_append_single]
    have hf : alistFind s n = none := Option.not_isSome_iff_eq_none.mp h
    rw [hf]
    simp

theorem alistFind_cachePut (s : CacheStore) (n u : String) (r : Response) (k : String) :
    alistFind (cachePut s n u r) k =
      if k = n then
        (alistFind s k).map (fun p => (u, r) :: p.filter (fun kv => kv.1 ≠ u))
      else alistFind s k := by
  induction s with
  | nil =>
    by_cases h : k = n <;> simp [cachePut, alistFind, h]
  | cons e rest ih =>
    obtain ⟨a, b⟩ := e
    simp only [cachePut, List.map_cons, ne_eq, decide_not] at ih ⊢
    by_cases hak : a = k
    · subst hak
      by_cases han : a = n <;> simp [alistFind, han]
    · simp only [alistFind, if_neg hak]
      exact ih

theorem alistFind_filter_ne (p : Partition) (u u' : String) (h : u' ≠ u) :
    alistFind (p.filter (fun kv => kv.1 ≠ u)) u' = alistFind p u' := by
  induction p with
  | nil => rfl
  | cons e rest ih =>
    obtain ⟨a, b⟩ := e
    simp only [ne_eq, decide_not, List.filter_cons] at ih ⊢
    by_cases ha : a = u
    · subst ha
      rw [if_neg (by simp), ih]
      have hau : ¬ a = u' := fun hh => h hh.symm
      simp [alistFind, hau]
    · rw [if_pos (by simp [ha])]
      simp only [alistFind]
      by_cases hau : a = u' <;> simp [hau, ih]

theorem cacheMatch_cachePut_self (s : CacheStore) (n u : String) (r : Response)
    (h : (alistFind s n).isSome) :
    cacheMatch (cachePut s n u r) n u = some r := by
  obtain ⟨p, hp⟩ := Option.isSome_iff_exists.mp h
  simp [cacheMatch, alistFind_cachePut, hp, alistFind]

theorem cacheMatch_cachePut_other (s : CacheStore) (n u : String) (r : Response)
    (k u' : String) (h : k ≠ n ∨ u' ≠ u) :
    cacheMatch (cachePut s n u r) k u' = cacheMatch s k u' := by
  rcases h with h | h
  · simp [cacheMatch, alistFind_cachePut, h]
  · by_cases hk : k = n
    · subst hk
      simp only [cacheMatch, alistFind_cachePut, if_pos rfl]
      cases hf : alistFind s k with
      | none => simp
      | some p =>
        have hu : ¬ u = u' := fun hh => h hh.symm
        have hfl := alistFind_filter_ne p u u' h
        simp only [ne_eq, decide_not] at hfl
        simp [alistFind, hu, hfl]
    · simp [cacheMatch, alistFind_cachePut, hk]

theorem isSome_alistFind_cachePut (s : CacheStore) (n u : String) (r : Response)
    (h : (alistFind s n).isSome) : (alistFind (cachePut s n u r) n).isSome := by
  obtain ⟨p, hp⟩ := Option.isSome_iff_exists.mp h
  simp [alistFind_cachePut, hp]

theorem alistFind_cachesDelete (s : CacheStore) (n k : String) :
    alistFind (cachesDelete s n) k = if k = n then none else alistFind s k := by
  induction s with
  | nil => by_cases h : k = n <;> simp [cachesDelete, alistFind, h]
  | cons e rest ih =>
    obtain ⟨a, b⟩ := e
    simp only [cachesDelete, ne_eq, decide_not, List.filter_cons] at ih ⊢
    by_cases han : a = n
    · subst han
      rw [if_neg (by simp), ih]
      by_cases hak : k = a
      · subst hak
        simp
      · have hka : ¬ a = k := fun hh => hak hh.symm
        simp [alistFind, hak, hka]
    · rw [if_pos (by simp [han])]
      simp only [alistFind]
      by_cases hak : a = k
      · subst hak
        simp [han]
      · simp [hak, ih]

theorem alistFind_eq_none_of_not_mem_keys (s : CacheStore) (k : String)
    (h : k ∉ cachesKeys s) : alistFind s k = none := by
  induction s with
  | nil => rfl
  | cons e rest ih =>
    obtain ⟨a, b⟩ := e
    simp only [cachesKeys, List.map_cons, List.mem_cons] at h
    push_neg at h
    have ha : ¬ a = k := fun hh => h.1 hh.symm
    simp only [alistFind, if_neg ha]
    exact ih (by simpa [cachesKeys] using h.2)

theorem alistFind_activate_foldl (names : List String) (s : CacheStore) (k : String) :
    alistFind
        (names.foldl
          (fun s2 nm =>
            if nm = CACHE_NAME ∨ nm = RUNTIME_CACHE then s2 else cachesDelete s2 nm)
          s) k =
      if k ∈ names ∧ k ≠ CACHE_NAME ∧ k ≠ RUNTIME_CACHE then none else alistFind s k := by
  induction names generalizing s with
  | nil => simp
  | cons n ns ih =>
    simp only [List.foldl_cons]
    rw [ih]
    have hstep :
        alistFind (if n = CACHE_NAME ∨ n = RUNTIME_CACHE then s else cachesDelete s n) k =
          if k = n ∧ k ≠ CACHE_NAME ∧ k ≠ RUNTIME_CACHE then none else alistFind s k := by
      by_cases hn : n = CACHE_NAME ∨ n = RUNTIME_CACHE
      · rw [if_pos hn]
        by_cases hkn : k = n
        · subst hkn
          rw [if_neg ?_]
          rintro ⟨-, hc, hr⟩
          rcases hn with hn | hn
          · exact hc hn
          · exact hr hn
        · simp [hkn]
      · rw [if_neg hn, alistFind_cachesDelete]
        push_neg at hn
        by_cases hkn : k = n
        · subst hkn
          simp [hn.1, hn.2]
        · simp [hkn]
    by_cases h1 : k ∈ ns ∧ k ≠ CACHE_NAME ∧ k ≠ RUNTIME_CACHE
    · rw [if_pos h1, if_pos ⟨List.mem_cons_of_mem _ h1.1, h1.2⟩]
    · rw [if_neg h1, hstep]
      by_cases h2 : k = n ∧ k ≠ CACHE_NAME ∧ k ≠ RUNTIME_CACHE
      · rw [if_pos h2, if_pos ⟨h2.1 ▸ List.mem_cons_self n ns, h2.2⟩]
      · rw [if_neg h2, if_neg ?_]
        rintro ⟨hm, hp⟩
        rcases List.mem_cons.mp hm with hm | hm
        · exact h2 ⟨hm, hp⟩
        · exact h1 ⟨hm, hp⟩

theorem alistFind_handleActivate (store : CacheStore) (k : String) :
    alistFind (handleActivate store) k =
      if k ∈ cachesKeys store ∧ k ≠ CACHE_NAME ∧ k ≠ RUNTIME_CACHE then none
      else alistFind store k :=
  alistFind_activate_foldl (cachesKeys store) store k

theorem foldl_cachesDelete_eq_nil (names : List String) (s : CacheStore)
    (h : ∀ e ∈ s, e.1 ∈ names) : names.foldl cachesDelete s = [] := by
  induction names generalizing s with
  | nil =>
    cases s with
    | nil => rfl
    | cons e rest => exact absurd (h e (List.mem_cons_self e rest)) (List.not_mem_nil e.1)
  | cons n ns ih =>
    simp only [List.foldl_cons]
    apply ih
    intro e he
    have he' : e ∈ s ∧ e.1 ≠ n := by
      simpa [cachesDelete, List.mem_filter] using he
    rcases List.mem_cons.mp (h e he'.1) with hm | hm
    · exact absurd hm he'.2
    · exact hm

theorem clearAll_eq_nil (s : CacheStore) : clearAll s = [] := by
  apply foldl_cachesDelete_eq_nil
  intro e he
  exact List.mem_map_of_mem Prod.fst he

theorem jsOr_ne_empty (v : Option String) (d : String) (hd : d ≠ "") : jsOr v d ≠ "" := by
  cases v with
  | none => exact hd
  | some s =>
    show (if s = "" then d else s) ≠ ""
    by_cases hs : s = ""
    · rw [if_pos hs]
      exact hd
    · rw [if_neg hs]
      exact hs

/-! ### Concrete sample inputs used by the witnesses -/

/-- A concrete 200 response. -/
def sampleOk : Response :=
  { status := 200, statusText := "OK", headers := [], body := "payload" }

/-- A concrete 404 response. -/
def sampleMissing : Response :=
  { status := 404, statusText := "Not Found", headers := [], body := "missing" }

/-- A concrete eligible GET request. -/
def sampleReq : Request :=
  { method := "GET", url := "https://app.example/data.json" }

/-! ### Claim theorems -/

/-- C1: for an intercepted GET request whose network fetch throws, the
handler returns the runtime-partition match when one exists, otherwise the
static-partition match when one exists, otherwise the synthesized 503
response — in exactly that order — and in every case a response is
returned, so the network failure is never surfaced to the caller. -/
theorem networkFirst_failure_fallback_chain (net : Network) (store : CacheStore)
    (request : Request) (hnet : net request.url = none) :
    (networkFirstStrategy net store request).1 =
      match cacheMatch store RUNTIME_CACHE request.url with
      | some r => r
      | none =>
        match cacheMatch store CACHE_NAME request.url with
        | some r => r
        | none => offlineResponse := by
  simp only [networkFirstStrategy, hnet, cacheMatch_cachesOpen]
  cases h1 : cacheMatch store RUNTIME_CACHE request.url with
  | some r => simp [h1]
  | none =>
    cases h2 : cacheMatch store CACHE_NAME request.url with
    | some r => simp [h1, h2]
    | none => simp [h1, h2]

/-- Witness for the fallback-chain theorem: a never-cached request against
an empty store while the network throws yields the synthesized response. -/
theorem networkFirst_failure_fallback_chain_witness :
    ((fun _ : String => (none : Option Response)) sampleReq.url = none) ∧
    (networkFirstStrategy (fun _ => none) [] sampleReq).1 = offlineResponse := by
  refine ⟨rfl, ?_⟩
  have h := networkFirst_failure_fallback_chain (fun _ => none) [] sampleReq rfl
  simpa [cacheMatch, alistFind] using h

/-- C2: on network success the original response is returned unmodified; a
copy is stored in the runtime partition exactly when the status is 200, and
a non-200 response is never written into any cache partition. -/
theorem networkFirst_success_cache_policy (net : Network) (store : CacheStore)
    (request : Request) (r : Response) (hnet : net request.url = some r) :
    (networkFirstStrategy net store request).1 = r ∧
    (r.status = 200 →
      cacheMatch (networkFirstStrategy net store request).2 RUNTIME_CACHE request.url
        = some r) ∧
    (r.status = 200 → ∀ name url, name ≠ RUNTIME_CACHE ∨ url ≠ request.url →
      cacheMatch (networkFirstStrategy net store request).2 name url
        = cacheMatch store name url) ∧
    (r.status ≠ 200 → ∀ name url,
      cacheMatch (networkFirstStrategy net store request).2 name url
        = cacheMatch store name url) := by
  refine ⟨?_, ?_, ?_, ?_⟩
  · by_cases hs : r.status = 200 <;> simp [networkFirstStrategy, hnet, hs]
  · intro hs
    have h2 : (networkFirstStrategy net store request).2
        = cachePut (cachesOpen store RUNTIME_CACHE) RUNTIME_CACHE request.url r := by
      simp [networkFirstStrategy, hnet, hs]
    rw [h2,
      cacheMatch_cachePut_self _ _ _ _ (isSome_alistFind_cachesOpen_self store RUNTIME_CACHE)]
  · intro hs name url hne
    have h2 : (networkFirstStrategy net store request).2
        = cachePut (cachesOpen store RUNTIME_CACHE) RUNTIME_CACHE request.url r := by
      simp [networkFirstStrategy, hnet, hs]
    rw [h2, cacheMatch_cachePut_other _ _ _ _ _ _ hne, cacheMatch_cachesOpen]
  · intro hs name url
    have h2 : (networkFirstStrategy net store request).2 = cachesOpen store RUNTIME_CACHE := by
      simp [networkFirstStrategy, hnet, hs]
    rw [h2, cacheMatch_cachesOpen]

/-- Witness for the success-path theorem: a 200 response is cached into the
runtime partition and a 404 response leaves every cache unchanged. -/
theorem networkFirst_success_cache_policy_witness :
    ((fun _ : String => some sampleOk) sampleReq.url = some sampleOk) ∧
    sampleOk.status = 200 ∧
    cacheMatch (networkFirstStrategy (fun _ => some sampleOk) [] sampleReq).2
        RUNTIME_CACHE sampleReq.url = some sampleOk :=
  ⟨rfl, rfl,
    (networkFirst_success_cache_policy (fun _ => some sampleOk) [] sampleReq sampleOk rfl).2.1
      rfl⟩

/-- C3: whenever the network throws and neither the runtime nor the static
partition holds the request, the returned response is exactly the
synthesized one: status 503, status text Service Unavailable, a single
JSON content-type header, and the exact JSON error body. -/
theorem offline_fallback_wire_format (net : Network) (store : CacheStore) (request : Request)
    (hnet : net request.url = none)
    (hrt : cacheMatch store RUNTIME_CACHE request.url = none)
    (hst : cacheMatch store CACHE_NAME request.url = none) :
    (networkFirstStrategy net store request).1 = offlineResponse ∧
    offlineResponse.status = 503 ∧
    offlineResponse.statusText = "Service Unavailable" ∧
    offlineResponse.headers = [("Content-Type", "application/json")] ∧
    offlineResponse.body =
      "\x7b\"error\":\"Offline and resource not cached\",\"message\":\"האפליקציה זמינה במצב לא מקוון, אך המשאב המבוקש לא נמצא במטמון\"\x7d" := by
  refine ⟨?_, rfl, rfl, rfl, rfl⟩
  simp [networkFirstStrategy, hnet, cacheMatch_cachesOpen, hrt, hst]

/-- Witness for the wire-format theorem at a concrete never-cached request. -/
theorem offline_fallback_wire_format_witness :
    (networkFirstStrategy (fun _ => none) [] sampleReq).1 = offlineResponse :=
  (offline_fallback_wire_format (fun _ => none) [] sampleReq rfl rfl rfl).1

/-- C4 counterexample: a GET request with the scheme `httpx:` — neither
http nor https — is nevertheless intercepted, because the listener only
checks that the protocol starts with "http". -/
theorem fetch_scheme_counterexample :
    urlProtocol "httpx://example.com/a" ≠ "http:" ∧
    urlProtocol "httpx://example.com/a" ≠ "https:" ∧
    (handleFetch (fun _ => none) [] { method := "GET", url := "httpx://example.com/a" }).isSome
      = true := by
  decide

/-- C4 amended: the interceptor declines — touching no cache and leaving
the request to proceed unaltered — exactly when the method is not GET or
the URL protocol does not start with "http" (rather than "is not
http/https"); every GET request whose protocol starts with "http" is
answered by the network-first strategy. -/
theorem fetch_passthrough_amended (net : Network) (store : CacheStore) (request : Request) :
    ((request.method ≠ "GET" ∨ ¬ strStartsWith (urlProtocol request.url) "http") →
      handleFetch net store request = none) ∧
    (request.method = "GET" → strStartsWith (urlProtocol request.url) "http" →
      handleFetch net store request = some (networkFirstStrategy net store request)) := by
  constructor
  · rintro (h | h)
    · simp [handleFetch, h]
    · simp [handleFetch, h]
  · intro h1 h2
    simp [handleFetch, h1, h2]

/-- Witness for the amended pass-through theorem: a POST request and an
ftp-scheme request pass through; a plain https GET is intercepted. -/
theorem fetch_passthrough_amended_witness :
    handleFetch (fun _ => none) [] { method := "POST", url := "https://app.example/x" }
      = none ∧
    handleFetch (fun _ => none) [] { method := "GET", url := "ftp://app.example/x" }
      = none := by
  constructor
  · exact (fetch_passthrough_amended (fun _ => none) []
      { method := "POST", url := "https://app.example/x" }).1 (Or.inl (by decide))
  · exact (fetch_passthrough_amended (fun _ => none) []
      { method := "GET", url := "ftp://app.example/x" }).1 (Or.inr (by decide))

/-- C5: after the activate handler runs, every partition whose name is
neither the current static name nor the runtime name is gone, the static
partition (present because install created it) survives unchanged, and the
runtime partition is preserved exactly as it was. -/
theorem activate_cache_cleanup (store : CacheStore)
    (h : (alistFind store CACHE_NAME).isSome) :
    (∀ n, n ≠ CACHE_NAME → n ≠ RUNTIME_CACHE → alistFind (handleActivate store) n = none) ∧
    alistFind (handleActivate store) CACHE_NAME = alistFind store CACHE_NAME ∧
    (alistFind (handleActivate store) CACHE_NAME).isSome ∧
    alistFind (handleActivate store) RUNTIME_CACHE = alistFind store RUNTIME_CACHE := by
  have hC : alistFind (handleActivate store) CACHE_NAME = alistFind store CACHE_NAME := by
    rw [alistFind_handleActivate]
    simp
  refine ⟨?_, hC, ?_, ?_⟩
  · intro n hn1 hn2
    rw [alistFind_handleActivate]
    by_cases hm : n ∈ cachesKeys store
    · rw [if_pos ⟨hm, hn1, hn2⟩]
    · rw [if_neg (fun hc => hm hc.1)]
      exact alistFind_eq_none_of_not_mem_keys store n hm
  · rw [hC]
    exact h
  · rw [alistFind_handleActivate]
    simp

/-- Witness for the activate-cleanup theorem: a store holding the current
static partition, a stale versioned partition and the runtime partition
keeps exactly the static and runtime ones. -/
theorem activate_cache_cleanup_witness :
    alistFind
        (handleActivate [(CACHE_NAME, []), ("memory-match-v1.0.0", []), (RUNTIME_CACHE, [])])
        "memory-match-v1.0.0" = none := by
  have h := activate_cache_cleanup
    [(CACHE_NAME, []), ("memory-match-v1.0.0", []), (RUNTIME_CACHE, [])] (by decide)
  exact h.1 "memory-match-v1.0.0" (by decide) (by decide)

/-! ### Lemmas about `addAll` -/

theorem foldl_addAll_none (net : Network) (name : String) (assets : List String) :
    assets.foldl
        (fun acc url => acc.bind (fun s =>
          (net url).bind (fun r =>
            if responseOk r then some (cachePut s name url r) else none)))
        none
      = none := by
  induction assets with
  | nil => rfl
  | cons u rest ih =>
    simpa only [List.foldl_cons, Option.none_bind] using ih

theorem addAll_nil (net : Network) (s : CacheStore) (name : String) :
    addAll net s name [] = some s := rfl

theorem addAll_cons_ok (net : Network) (s : CacheStore) (name u : String)
    (rest : List String) (r : Response) (hu : net u = some r) (hok : responseOk r = true) :
    addAll net s name (u :: rest) = addAll net (cachePut s name u r) name rest := by
  simp [addAll, List.foldl_cons, hu, hok]

theorem addAll_cons_none (net : Network) (s : CacheStore) (name u : String)
    (rest : List String) (hu : net u = none) :
    addAll net s name (u :: rest) = none := by
  simp only [addAll, List.foldl_cons, Option.some_bind, hu, Option.none_bind]
  exact foldl_addAll_none net name rest

theorem addAll_cons_notOk (net : Network) (s : CacheStore) (name u : String)
    (rest : List String) (r : Response) (hu : net u = some r)
    (hok : responseOk r = false) :
    addAll net s name (u :: rest) = none := by
  simp only [addAll, List.foldl_cons, Option.some_bind, hu, Option.some_bind, hok,
    Bool.false_eq_true, if_false]
  exact foldl_addAll_none net name rest

theorem addAll_eq_none_of_mem (net : Network) (name a : String)
    (hfail : net a = none ∨ ∃ r, net a = some r ∧ responseOk r = false) :
    ∀ (assets : List String) (s : CacheStore), a ∈ assets → addAll net s name assets = none := by
  intro assets
  induction assets with
  | nil =>
    intro s ha
    exact absurd ha (List.not_mem_nil a)
  | cons u rest ih =>
    intro s ha
    cases hu : net u with
    | none => exact addAll_cons_none net s name u rest hu
    | some r =>
      cases hok : responseOk r with
      | false => exact addAll_cons_notOk net s name u rest r hu hok
      | true =>
        rw [addAll_cons_ok net s name u rest r hu hok]
        rcases List.mem_cons.mp ha with h | h
        · subst h
          rcases hfail with hf | ⟨r', hr', hok'⟩
          · rw [hu] at hf
            exact Option.noConfusion hf
          · rw [hu] at hr'
            cases Option.some.inj hr'
            rw [hok] at hok'
            exact Bool.noConfusion hok'
        · exact ih _ h

/-- C6: with the static partition not yet present, installing with every
asset fetch resolving with an ok (2xx) response succeeds, signals
skip-waiting, and leaves the static partition holding exactly the four
listed assets (each mapped to its fetched response, nothing else); if any
single asset fetch fails — it throws, or resolves with a non-ok response,
which `cache.addAll` rejects — the whole install rejects. -/
theorem install_all_or_nothing (net : Network) (store : CacheStore)
    (h : alistFind store CACHE_NAME = none) :
    ((∀ a ∈ STATIC_ASSETS, ∃ r, net a = some r ∧ responseOk r = true) →
      ∃ s, handleInstall net store = some (s, true) ∧
        (∀ a ∈ STATIC_ASSETS, cacheMatch s CACHE_NAME a = net a) ∧
        (∀ u, u ∉ STATIC_ASSETS → cacheMatch s CACHE_NAME u = none)) ∧
    (∀ a ∈ STATIC_ASSETS,
      (net a = none ∨ ∃ r, net a = some r ∧ responseOk r = false) →
      handleInstall net store = none) := by
  constructor
  · intro hall
    obtain ⟨r1, e1, ok1⟩ := hall "./" (by simp [STATIC_ASSETS])
    obtain ⟨r2, e2, ok2⟩ := hall "./index.html" (by simp [STATIC_ASSETS])
    obtain ⟨r3, e3, ok3⟩ := hall "./manifest.json" (by simp [STATIC_ASSETS])
    obtain ⟨r4, e4, ok4⟩ := hall "./logo.png" (by simp [STATIC_ASSETS])
    have hs1find : alistFind (cachesOpen store CACHE_NAME) CACHE_NAME = some [] := by
      unfold cachesOpen
      rw [if_neg (by simp [h]), alistFind_append_single, h]
      simp
    have hsome0 : (alistFind (cachesOpen store CACHE_NAME) CACHE_NAME).isSome := by
      simp [hs1find]
    have hsome1 := isSome_alistFind_cachePut _ CACHE_NAME "./" r1 hsome0
    have hsome2 := isSome_alistFind_cachePut _ CACHE_NAME "./index.html" r2 hsome1
    have hsome3 := isSome_alistFind_cachePut _ CACHE_NAME "./manifest.json" r3 hsome2
    refine ⟨cachePut (cachePut (cachePut (cachePut (cachesOpen store CACHE_NAME)
      CACHE_NAME "./" r1) CACHE_NAME "./index.html" r2) CACHE_NAME "./manifest.json" r3)
      CACHE_NAME "./logo.png" r4, ?_, ?_, ?_⟩
    · simp only [handleInstall, STATIC_ASSETS]
      rw [addAll_cons_ok _ _ _ _ _ _ e1 ok1, addAll_cons_ok _ _ _ _ _ _ e2 ok2,
        addAll_cons_ok _ _ _ _ _ _ e3 ok3, addAll_cons_ok _ _ _ _ _ _ e4 ok4, addAll_nil]
      rfl
    · intro a ha
      have ha4 : a = "./" ∨ a = "./index.html" ∨ a = "./manifest.json" ∨ a = "./logo.png" := by
        simpa [STATIC_ASSETS] using ha
      rcases ha4 with rfl | rfl | rfl | rfl
      · rw [e1,
          cacheMatch_cachePut_other _ _ _ _ _ _ (Or.inr (by decide)),
          cacheMatch_cachePut_other _ _ _ _ _ _ (Or.inr (by decide)),
          cacheMatch_cachePut_other _ _ _ _ _ _ (Or.inr (by decide)),
          cacheMatch_cachePut_self _ _ _ _ hsome0]
      · rw [e2,
          cacheMatch_cachePut_other _ _ _ _ _ _ (Or.inr (by decide)),
          cacheMatch_cachePut_other _ _ _ _ _ _ (Or.inr (by decide)),
          cacheMatch_cachePut_self _ _ _ _ hsome1]
      · rw [e3,
          cacheMatch_cachePut_other _ _ _ _ _ _ (Or.inr (by decide)),
          cacheMatch_cachePut_self _ _ _ _ hsome2]
      · rw [e4, cacheMatch_cachePut_self _ _ _ _ hsome3]
    · intro u hu
      have hu4 : ¬ u = "./" ∧ ¬ u = "./index.html" ∧ ¬ u = "./manifest.json" ∧
          ¬ u = "./logo.png" := by
        simpa [STATIC_ASSETS] using hu
      rw [cacheMatch_cachePut_other _ _ _ _ _ _ (Or.inr hu4.2.2.2),
        cacheMatch_cachePut_other _ _ _ _ _ _ (Or.inr hu4.2.2.1),
        cacheMatch_cachePut_other _ _ _ _ _ _ (Or.inr hu4.2.1),
        cacheMatch_cachePut_other _ _ _ _ _ _ (Or.inr hu4.1)]
      simp [cacheMatch, hs1find, alistFind]
  · intro a ha hfail
    simp only [handleInstall]
    rw [addAll_eq_none_of_mem net CACHE_NAME a hfail STATIC_ASSETS _ ha]
    rfl

/-- Witness for the install theorem: a network that answers every asset
with a 200 response makes install succeed from an empty store, and a
network that answers every asset with a 404 makes install reject. -/
theorem install_all_or_nothing_witness :
    alistFind ([] : CacheStore) CACHE_NAME = none ∧
    (handleInstall (fun _ => some sampleOk) []).isSome = true ∧
    handleInstall (fun _ => some sampleMissing) [] = none := by
  refine ⟨rfl, ?_, ?_⟩
  · have h := install_all_or_nothing (fun _ => some sampleOk) [] rfl
    obtain ⟨s, hs, -, -⟩ := h.1 (fun a _ => ⟨sampleOk, rfl, by decide⟩)
    rw [hs]
    rfl
  · have h := install_all_or_nothing (fun _ => some sampleMissing) [] rfl
    exact h.2 "./" (by simp [STATIC_ASSETS]) (Or.inr ⟨sampleMissing, rfl, by decide⟩)

/-- C7: a CLEAR_CACHE message deletes every partition — the store is empty
afterwards — and issuing it twice yields the same end state as once. -/
theorem clear_cache_deletes_all_idempotent (store : CacheStore) :
    (handleMessage store (some { type := "CLEAR_CACHE" })).1 = [] ∧
    (handleMessage (handleMessage store (some { type := "CLEAR_CACHE" })).1
        (some { type := "CLEAR_CACHE" })).1
      = (handleMessage store (some { type := "CLEAR_CACHE" })).1 := by
  have h1 : (handleMessage store (some { type := "CLEAR_CACHE" })).1 = [] := by
    simp [handleMessage, clearAll_eq_nil]
  refine ⟨h1, ?_⟩
  rw [h1]
  simp [handleMessage, clearAll_eq_nil]

/-- The response stored for the sample asset at install time. -/
def installCopy : Response :=
  { status := 200, statusText := "OK", headers := [], body := "install copy" }

/-- A different response cached later into the runtime partition for the
same URL. -/
def runtimeCopy : Response :=
  { status := 200, statusText := "OK", headers := [], body := "runtime copy" }

/-- The request whose static entry is shadowed by a runtime entry. -/
def shadowedReq : Request :=
  { method := "GET", url := "https://app.example/index.html" }

/-- A store where the same URL is cached both in the runtime partition and
in the static partition, with different bodies. -/
def shadowStore : CacheStore :=
  [(RUNTIME_CACHE, [(shadowedReq.url, runtimeCopy)]),
   (CACHE_NAME, [(shadowedReq.url, installCopy)])]

/-- C8 counterexample: for a GET request whose URL is a cached static asset
(stored 200 response present in the static partition), a network failure
does NOT return the install-time response when the runtime partition also
holds that URL — the runtime copy shadows it, so the claim's "regardless of
whatever else has been cached since" fails. -/
theorem static_fallback_shadowed_counterexample :
    cacheMatch shadowStore CACHE_NAME shadowedReq.url = some installCopy ∧
    installCopy.status = 200 ∧
    (networkFirstStrategy (fun _ => none) shadowStore shadowedReq).1 ≠ installCopy ∧
    (networkFirstStrategy (fun _ => none) shadowStore shadowedReq).1 = runtimeCopy := by
  decide

/-- C8 amended: for a GET request whose URL is a cached static asset, when
the network throws and the request has no runtime-partition match, the
response returned is exactly the one stored in the static partition
(byte-for-byte, including its 200 status). -/
theorem static_fallback_amended (net : Network) (store : CacheStore) (request : Request)
    (r : Response) (hnet : net request.url = none)
    (hrt : cacheMatch store RUNTIME_CACHE request.url = none)
    (hst : cacheMatch store CACHE_NAME request.url = some r) :
    (networkFirstStrategy net store request).1 = r := by
  simp [networkFirstStrategy, hnet, cacheMatch_cachesOpen, hrt, hst]

/-- Witness for the amended static-fallback theorem: a store holding only
the static copy returns it when the network throws. -/
theorem static_fallback_amended_witness :
    (networkFirstStrategy (fun _ => none)
        [(CACHE_NAME, [(sampleReq.url, sampleOk)])] sampleReq).1 = sampleOk :=
  static_fallback_amended (fun _ => none) [(CACHE_NAME, [(sampleReq.url, sampleOk)])]
    sampleReq sampleOk rfl (by decide) (by decide)

theorem jsOr_some_of_ne (x d : String) (h : x ≠ "") : jsOr (some x) d = x := by
  show (if x = "" then d else x) = x
  rw [if_neg h]

/-- C9: every push event displays a notification with payload-or-default
title, body, icon, the fixed vibration pattern, and exactly the two actions
"open" and "close"; a later notification click with action "open" or with
no action opens a window at the URL carried in the payload at display time,
or the default path when the payload carried none. -/
theorem push_notification_display_and_open (p : PushPayload) (action : String)
    (haction : action = "open" ∨ action = "") :
    (handlePush (some p)).title = jsOr p.title "Memory Match" ∧
    (handlePush (some p)).options.body = jsOr p.body "יש לך משחק לא גמור!" ∧
    (handlePush (some p)).options.icon = jsOr p.icon "./icon-192.png" ∧
    (handlePush (some p)).options.vibrate = [200, 100, 200] ∧
    (handlePush (some p)).options.actions.map NotificationAction.action = ["open", "close"] ∧
    (handleNotificationClick action (handlePush (some p)).options.data).openedWindow
      = some (jsOr p.url "./") ∧
    handlePush none = handlePush (some { title := none, body := none, icon := none, url := none }) := by
  refine ⟨rfl, rfl, rfl, rfl, rfl, ?_, rfl⟩
  unfold handleNotificationClick
  rw [if_pos haction]
  have hne : jsOr p.url "./" ≠ "" := jsOr_ne_empty p.url "./" (by decide)
  show some (jsOr (some (jsOr p.url "./")) "./") = some (jsOr p.url "./")
  rw [jsOr_some_of_ne _ _ hne]

/-- A concrete push payload carrying a URL. -/
def samplePayload : PushPayload :=
  { title := some "T", body := none, icon := none, url := some "https://app.example/game" }

/-- Witness for the push/click theorem: a payload carrying a URL and a
click on "open" opens a window at exactly that URL. -/
theorem push_notification_display_and_open_witness :
    (handleNotificationClick "open"
        (handlePush (some samplePayload)).options.data).openedWindow
      = some "https://app.example/game" := by
  have h := push_notification_display_and_open samplePayload "open" (Or.inl rfl)
  exact h.2.2.2.2.2.1.trans (by decide)

/-- C10: every notification click closes the notification unconditionally,
and a window is opened exactly when the action is "open" or absent (the
empty action string); any other action id dismisses with no window. -/
theorem notificationclick_close_and_open_iff (action data : String) :
    (handleNotificationClick action data).closed = true ∧
    ((handleNotificationClick action data).openedWindow.isSome
      ↔ (action = "open" ∨ action = "")) := by
  unfold handleNotificationClick
  refine ⟨rfl, ?_⟩
  by_cases h : action = "open" ∨ action = ""
  · rw [if_pos h]
    simp [h]
  · rw [if_neg h]
    simp [h]

end SW
